import Mathlib

/-!
# Verification of the roccobots synchronization and scheduling engine

Shallow embedding of the core sync engine of the repository:
* the post-sync orchestrator `syncPosts` (src/sync/sync-posts.ts) with its
  consecutive-cached cutoff, per-destination retry fan-out and dedup marking,
* the bounded-retry helper `withRetry` (src/utils/retry.ts),
* the profile-sync orchestrator `syncProfile` / `upsertProfileCache`
  (src/sync/sync-profile.ts),
* the mention command channel: `parseCommand` (src/sync/commands/command-parser.ts)
  and `CommandPoller.poll` / `CommandPoller.processMention`
  (src/sync/commands/command-types.ts),
* the bot lifecycle: `BotInstance.start` (src/sync/bot-instance.ts) and
  `BotManager.start` / `BotManager.ensureXClient`
  (src/web/services/bot-manager.ts).

External collaborators (the twitter scraper, destination platform clients, the
SQLite engine, media download and hashing) are modelled as parameters; the
database tables touched by the engine (`tweet_synced`, `tweet_map`,
`twitter_profile_cache`, the command cursor) are modelled as explicit state.
-/

set_option maxRecDepth 4000

namespace RoccoBots

/-! ## Retry helper (src/utils/retry.ts, `withRetry`)

`withRetry(fn, {maxRetries})` runs `fn` for `attempt = 0 .. maxRetries`
(`maxRetries + 1` attempts in total), returning the first success and
rethrowing the last error once all attempts failed.  The outcome of the
`attempt`-th call of `fn` is supplied as `fn attempt`. -/

def withRetryAux (fn : Nat → Except String α) : Nat → Nat → Except String α
  | attempt, 0 => fn attempt
  | attempt, remaining + 1 =>
    match fn attempt with
    | Except.ok v => Except.ok v
    | Except.error _ => withRetryAux fn (attempt + 1) remaining

def withRetry (fn : Nat → Except String α) (maxRetries : Nat) : Except String α :=
  withRetryAux fn 0 maxRetries

/-! ## Post sync data model (src/sync/sync-posts.ts)

A tweet carries its id and the verdict of `isValidPost` (module `types/post`,
outside the engine; the orchestrator only branches on its boolean result).
A synchronizer is a destination with an optional `syncPost` capability; the
outcome of its `attempt`-th `syncPost` call for a tweet id is an external
input (`attempts`), a success carrying the serialized `store` blob
(`none` models a falsy `syncRes`, stored as the empty string). -/

structure Tweet where
  id : String
  text : String
  valid : Bool
deriving DecidableEq, Repr

structure Synchronizer where
  platformId : String
  hasSyncPost : Bool
  attempts : String → Nat → Except String (Option String)

/-- Database state touched by the post-sync pass: the `tweet_synced`
dedup markers (tweetId, synced flag) and the `tweet_map` delivery records
(tweetId, platform, platformStore), unique per (tweetId, platform). -/
structure SyncDB where
  tweetSynced : List (String × Nat)
  tweetMap : List (String × String × String)
deriving DecidableEq, Repr

/-- `db.select().from(TweetSynced).where(eq(TweetSynced.tweetId, id)).get()`. -/
def lookupSyncedFlag (db : SyncDB) (id : String) : Option Nat :=
  (db.tweetSynced.find? (fun p => p.1 == id)).map (fun p => p.2)

/-- The dedup test of the loop body: a row exists and `synced !== 0`. -/
def postCached (db : SyncDB) (id : String) : Bool :=
  match lookupSyncedFlag db id with
  | some f => f != 0
  | none => false

def tweetMapHas (db : SyncDB) (id pf : String) : Bool :=
  db.tweetMap.any (fun r => r.1 == id && r.2.1 == pf)

/-- `db.insert(TweetMap).values(...).onConflictDoNothing()`: a duplicate
(tweetId, platform) insert leaves the table unchanged. -/
def insertTweetMap (db : SyncDB) (id pf store : String) : SyncDB :=
  if tweetMapHas db id pf then db
  else { db with tweetMap := db.tweetMap ++ [(id, pf, store)] }

/-- `db.insert(TweetSynced).values({tweetId, synced: 1}).onConflictDoUpdate(...)`. -/
def upsertTweetSynced (db : SyncDB) (id : String) : SyncDB :=
  if db.tweetSynced.any (fun p => p.1 == id) then
    { db with tweetSynced := db.tweetSynced.map (fun p => if p.1 == id then (p.1, 1) else p) }
  else
    { db with tweetSynced := db.tweetSynced ++ [(id, 1)] }

/-- Observable outcome of one post-sync pass: the final database, one entry
in `calls` per `syncPost` invocation (platformId, tweetId), one entry in
`errors` per destination failure reported through `logError` / the error
`onLog` callback, and the ids of the tweets that reached the validity /
dedup checks of the loop body (`examined`). -/
structure SyncPostsResult where
  db : SyncDB
  calls : List (String × String)
  errors : List (String × String)
  examined : List String
deriving DecidableEq, Repr

/-- Inner body for one destination: skip when the capability is absent,
otherwise run `syncPost` under `withRetry` with `maxRetries: 3`; a success
inserts the delivery record, exhausted retries are caught and logged. -/
def processSynchronizer (db : SyncDB) (t : Tweet) (s : Synchronizer) :
    SyncDB × List (String × String) × List (String × String) :=
  if !s.hasSyncPost then (db, [], [])
  else
    match withRetry (s.attempts t.id) 3 with
    | Except.ok store =>
      let storeStr := match store with
        | some str => str
        | none => ""
      (insertTweetMap db t.id s.platformId storeStr, [(s.platformId, t.id)], [])
    | Except.error _ => (db, [(s.platformId, t.id)], [(s.platformId, t.id)])

/-- `for (const s of args.synchronizers) ...` - sequential fan-out. -/
def processDestinations (t : Tweet) :
    SyncDB → List Synchronizer → SyncDB × List (String × String) × List (String × String)
  | db, [] => (db, [], [])
  | db, s :: rest =>
    let r1 := processSynchronizer db t s
    let r2 := processDestinations t r1.1 rest
    (r2.1, r1.2.1 ++ r2.2.1, r1.2.2 ++ r2.2.2)

/-- The `for await (const tweet of iter)` loop of `syncPosts`.
`cached` is `cachedCounter`; the `cachedCounter >= MAX_NEW_CONSECUTIVE_CACHED`
break is tested at the top of each iteration, before the validity and dedup
checks of the freshly pulled tweet. -/
def syncPostsLoop (force : Bool) (maxCached : Nat) (syncs : List Synchronizer) :
    SyncDB → Nat → List Tweet → SyncPostsResult
  | db, _, [] => ⟨db, [], [], []⟩
  | db, cached, t :: rest =>
    if maxCached ≤ cached then ⟨db, [], [], []⟩
    else if !t.valid then
      let r := syncPostsLoop force maxCached syncs db cached rest
      { r with examined := t.id :: r.examined }
    else if postCached db t.id && !force then
      let r := syncPostsLoop force maxCached syncs db (cached + 1) rest
      { r with examined := t.id :: r.examined }
    else
      let rd := processDestinations t db syncs
      let db2 := upsertTweetSynced rd.1 t.id
      let r := syncPostsLoop force maxCached syncs db2 0 rest
      ⟨r.db, rd.2.1 ++ r.calls, rd.2.2 ++ r.errors, t.id :: r.examined⟩

/-- One post-sync pass (`syncPosts`).  `feed` is the upstream page, newest
first; `x.getTweets(handle, MAX_TWEET)` yields at most `MAX_TWEET = 200`
items.  The pass returns immediately when no synchronizer offers `syncPost`. -/
def syncPosts (force : Bool) (maxCached : Nat) (syncs : List Synchronizer)
    (db : SyncDB) (feed : List Tweet) : SyncPostsResult :=
  if (syncs.filter (fun s => s.hasSyncPost)).length == 0 then ⟨db, [], [], []⟩
  else syncPostsLoop force maxCached syncs db 0 (feed.take 200)

/-! ### Basic lemmas about the post-sync state operations -/

theorem tweetMapHas_insert_self (db : SyncDB) (id pf store : String) :
    tweetMapHas (insertTweetMap db id pf store) id pf = true := by
  unfold insertTweetMap
  by_cases h : tweetMapHas db id pf
  · simp [h]
  · simp only [h, Bool.false_eq_true, if_false]
    simp [tweetMapHas, List.any_append]

theorem tweetMapHas_insert_mono (db : SyncDB) (id pf i p s : String)
    (h : tweetMapHas db id pf = true) :
    tweetMapHas (insertTweetMap db i p s) id pf = true := by
  unfold insertTweetMap
  by_cases hc : tweetMapHas db i p
  · simp [hc, h]
  · simp only [hc, Bool.false_eq_true, if_false]
    simp only [tweetMapHas, List.any_append] at h ⊢
    simp [h]

theorem tweetSynced_insertTweetMap (db : SyncDB) (id pf store : String) :
    (insertTweetMap db id pf store).tweetSynced = db.tweetSynced := by
  unfold insertTweetMap
  by_cases h : tweetMapHas db id pf <;> simp [h]

theorem tweetSynced_processSynchronizer (db : SyncDB) (t : Tweet) (s : Synchronizer) :
    (processSynchronizer db t s).1.tweetSynced = db.tweetSynced := by
  unfold processSynchronizer
  by_cases h : s.hasSyncPost
  · simp only [h, Bool.not_true, Bool.false_eq_true, if_false]
    cases withRetry (s.attempts t.id) 3 <;> simp [tweetSynced_insertTweetMap]
  · simp [h]

theorem tweetMapHas_processSynchronizer_mono (db : SyncDB) (t : Tweet) (s : Synchronizer)
    (id pf : String) (h : tweetMapHas db id pf = true) :
    tweetMapHas (processSynchronizer db t s).1 id pf = true := by
  unfold processSynchronizer
  by_cases hc : s.hasSyncPost
  · simp only [hc, Bool.not_true, Bool.false_eq_true, if_false]
    cases withRetry (s.attempts t.id) 3 <;> simp [tweetMapHas_insert_mono, h]
  · simp [hc, h]

theorem tweetSynced_processDestinations (t : Tweet) (db : SyncDB) (syncs : List Synchronizer) :
    (processDestinations t db syncs).1.tweetSynced = db.tweetSynced := by
  induction syncs generalizing db with
  | nil => rfl
  | cons s rest ih =>
    simp only [processDestinations]
    rw [ih, tweetSynced_processSynchronizer]

theorem tweetMapHas_processDestinations_mono (t : Tweet) (db : SyncDB)
    (syncs : List Synchronizer) (id pf : String) (h : tweetMapHas db id pf = true) :
    tweetMapHas (processDestinations t db syncs).1 id pf = true := by
  induction syncs generalizing db with
  | nil => exact h
  | cons s rest ih =>
    simp only [processDestinations]
    exact ih _ (tweetMapHas_processSynchronizer_mono _ _ _ _ _ h)

theorem find_map_set (l : List (String × Nat)) (id : String)
    (h : l.any (fun p => p.1 == id) = true) :
    (l.map (fun p => if p.1 == id then (p.1, (1 : Nat)) else p)).find?
      (fun p => p.1 == id) = some (id, 1) := by
  induction l with
  | nil => simp at h
  | cons p rest ih =>
    by_cases hp : p.1 == id
    · have hid : p.1 = id := by simpa using hp
      simp [List.find?, hp, hid]
    · have hp' : (p.1 == id) = false := Bool.eq_false_iff.mpr hp
      simp only [List.any_cons, hp', Bool.false_or] at h
      have hif : (if (p.1 == id) = true then (p.1, (1 : Nat)) else p) = p := by
        simp [hp']
      rw [List.map_cons, hif, List.find?_cons_of_neg _ (by simp [hp'])]
      exact ih h

theorem find_append_new (l : List (String × Nat)) (id : String)
    (h : l.any (fun p => p.1 == id) = false) :
    (l ++ [(id, (1 : Nat))]).find? (fun p => p.1 == id) = some (id, 1) := by
  induction l with
  | nil => simp [List.find?]
  | cons p rest ih =>
    simp only [List.any_cons, Bool.or_eq_false_iff] at h
    simp only [List.cons_append, List.find?, h.1]
    exact ih h.2

theorem lookupSyncedFlag_upsert (db : SyncDB) (id : String) :
    lookupSyncedFlag (upsertTweetSynced db id) id = some 1 := by
  unfold upsertTweetSynced lookupSyncedFlag
  by_cases h : db.tweetSynced.any (fun p => p.1 == id)
  · simp only [h, if_true]
    rw [find_map_set _ _ h]
    rfl
  · simp only [h, Bool.false_eq_true, if_false]
    rw [find_append_new _ _ (Bool.eq_false_iff.mpr h)]
    rfl

theorem withRetry_isError (fn : Nat → Except String (Option String))
    (h : ∀ i, i ≤ 3 → ∃ e, fn i = Except.error e) :
    ∃ e, withRetry fn 3 = Except.error e := by
  obtain ⟨e0, h0⟩ := h 0 (by omega)
  obtain ⟨e1, h1⟩ := h 1 (by omega)
  obtain ⟨e2, h2⟩ := h 2 (by omega)
  obtain ⟨e3, h3⟩ := h 3 (by omega)
  exact ⟨e3, by simp [withRetry, withRetryAux, h0, h1, h2, h3]⟩

/-- A destination with `syncPost` whose retries all succeed somewhere in the
fan-out list ends with its delivery record inserted and its call recorded. -/
theorem processDestinations_success (t : Tweet) (db : SyncDB) (syncs : List Synchronizer)
    (s : Synchronizer) (hmem : s ∈ syncs) (hcap : s.hasSyncPost = true)
    (st : Option String) (hok : withRetry (s.attempts t.id) 3 = Except.ok st) :
    (s.platformId, t.id) ∈ (processDestinations t db syncs).2.1 ∧
      tweetMapHas (processDestinations t db syncs).1 t.id s.platformId = true := by
  induction syncs generalizing db with
  | nil => cases hmem
  | cons hd rest ih =>
    rcases List.mem_cons.mp hmem with heq | htl
    · subst heq
      obtain ⟨storeStr, hproc⟩ : ∃ storeStr, processSynchronizer db t s =
          (insertTweetMap db t.id s.platformId storeStr, [(s.platformId, t.id)], []) := by
        unfold processSynchronizer
        rw [hcap]
        rcases hw : withRetry (s.attempts t.id) 3 with e | store
        · rw [hok] at hw
          cases hw
        · exact ⟨_, rfl⟩
      constructor
      · simp [processDestinations, hproc]
      · simp only [processDestinations, hproc]
        exact tweetMapHas_processDestinations_mono _ _ _ _ _
          (tweetMapHas_insert_self _ _ _ _)
    · have := ih (processSynchronizer db t hd).1 htl
      constructor
      · simp only [processDestinations]
        exact List.mem_append_right _ this.1
      · simp only [processDestinations]
        exact this.2

/-- A destination with `syncPost` that throws on every retry attempt has its
failure recorded in the error log, wherever it sits in the fan-out list. -/
theorem processDestinations_failure (t : Tweet) (db : SyncDB) (syncs : List Synchronizer)
    (s : Synchronizer) (hmem : s ∈ syncs) (hcap : s.hasSyncPost = true)
    (hfail : ∀ i, i ≤ 3 → ∃ e, s.attempts t.id i = Except.error e) :
    (s.platformId, t.id) ∈ (processDestinations t db syncs).2.2 := by
  induction syncs generalizing db with
  | nil => cases hmem
  | cons hd rest ih =>
    rcases List.mem_cons.mp hmem with heq | htl
    · subst heq
      obtain ⟨e, he⟩ := withRetry_isError _ hfail
      have hproc : processSynchronizer db t s = (db, [(s.platformId, t.id)], [(s.platformId, t.id)]) := by
        unfold processSynchronizer
        simp [hcap, he]
      simp [processDestinations, hproc]
    · simp only [processDestinations]
      exact List.mem_append_right _ (ih (processSynchronizer db t hd).1 htl)

/-- When every tweet of the remaining page that is structurally valid is
already marked synced, the loop issues no `syncPost` call and leaves the
database untouched, for any value of the consecutive-cached counter. -/
theorem syncPostsLoop_all_cached (maxCached : Nat) (syncs : List Synchronizer)
    (db : SyncDB) (L : List Tweet) (c : Nat)
    (h : ∀ t ∈ L, t.valid = true → postCached db t.id = true) :
    (syncPostsLoop false maxCached syncs db c L).calls = [] ∧
      (syncPostsLoop false maxCached syncs db c L).db = db := by
  induction L generalizing c with
  | nil => exact ⟨rfl, rfl⟩
  | cons t rest ih =>
    by_cases hbrk : maxCached ≤ c
    · simp [syncPostsLoop, hbrk]
    · by_cases hv : t.valid
      · have hc : postCached db t.id = true := h t (List.mem_cons_self t rest) hv
        have := ih (c + 1) (fun t' ht' => h t' (List.mem_cons_of_mem _ ht'))
        simp only [syncPostsLoop, hbrk, if_false, hv, Bool.not_true, Bool.false_eq_true, hc,
          Bool.not_false, Bool.and_self, if_true]
        exact this
      · have := ih c (fun t' ht' => h t' (List.mem_cons_of_mem _ ht'))
        simp only [Bool.not_eq_true] at hv
        simp only [syncPostsLoop, hbrk, if_false, hv, Bool.not_false, if_true]
        exact this

/-- When the first `maxCached - c` tweets of the remaining page are valid and
already marked synced, the loop stops inside that prefix: no `syncPost`
call, no database change, and only tweets of that prefix are examined. -/
theorem syncPostsLoop_prefix_cached (maxCached : Nat) (syncs : List Synchronizer)
    (db : SyncDB) (L : List Tweet) (c : Nat)
    (h : ∀ t ∈ L.take (maxCached - c), t.valid = true ∧ postCached db t.id = true) :
    (syncPostsLoop false maxCached syncs db c L).calls = [] ∧
      (syncPostsLoop false maxCached syncs db c L).db = db ∧
      ∀ id ∈ (syncPostsLoop false maxCached syncs db c L).examined,
        id ∈ (L.take (maxCached - c)).map Tweet.id := by
  induction L generalizing c with
  | nil => exact ⟨rfl, rfl, by simp [syncPostsLoop]⟩
  | cons t rest ih =>
    by_cases hbrk : maxCached ≤ c
    · refine ⟨by simp [syncPostsLoop, hbrk], by simp [syncPostsLoop, hbrk], ?_⟩
      simp [syncPostsLoop, hbrk]
    · have hpos : maxCached - c = (maxCached - (c + 1)) + 1 := by omega
      have hhead : t ∈ (t :: rest).take (maxCached - c) := by
        rw [hpos, List.take_succ_cons]
        exact List.mem_cons_self _ _
      obtain ⟨hv, hc⟩ := h t hhead
      have htail : ∀ t' ∈ rest.take (maxCached - (c + 1)), t'.valid = true ∧ postCached db t'.id = true := by
        intro t' ht'
        apply h
        rw [hpos, List.take_succ_cons]
        exact List.mem_cons_of_mem _ ht'
      obtain ⟨ihc, ihdb, ihex⟩ := ih (c + 1) htail
      simp only [syncPostsLoop, hbrk, if_false, hv, Bool.not_true, Bool.false_eq_true, hc,
        Bool.not_false, Bool.and_self, if_true]
      refine ⟨ihc, ihdb, ?_⟩
      intro id hid
      simp only [List.mem_cons] at hid
      rw [hpos, List.take_succ_cons, List.map_cons]
      rcases hid with h1 | h2
      · exact h1 ▸ List.mem_cons_self _ _
      · exact List.mem_cons_of_mem _ (ihex id h2)

theorem tweetMap_upsertTweetSynced (db : SyncDB) (id : String) :
    (upsertTweetSynced db id).tweetMap = db.tweetMap := by
  unfold upsertTweetSynced
  by_cases h : db.tweetSynced.any (fun p => p.1 == id) <;> simp [h]

theorem tweetMapHas_upsertTweetSynced (db : SyncDB) (id i p : String) :
    tweetMapHas (upsertTweetSynced db id) i p = tweetMapHas db i p := by
  unfold tweetMapHas
  rw [tweetMap_upsertTweetSynced]

theorem take_mono_subset {α : Type} (l : List α) (m n : Nat) (h : m ≤ n) :
    l.take m ⊆ l.take n := by
  intro x hx
  rw [← List.take_append_drop m (l.take n), List.take_take, min_eq_left h]
  exact List.mem_append_left _ hx

/-- A pass over a page whose valid posts are all marked synced makes no
`syncPost` call and leaves the database unchanged. -/
theorem syncPosts_all_cached (maxCached : Nat) (syncs : List Synchronizer) (db : SyncDB)
    (feed : List Tweet) (h : ∀ t ∈ feed, t.valid = true → postCached db t.id = true) :
    (syncPosts false maxCached syncs db feed).calls = [] ∧
      (syncPosts false maxCached syncs db feed).db = db := by
  unfold syncPosts
  by_cases hf : ((syncs.filter (fun s => s.hasSyncPost)).length == 0) = true
  · simp [hf]
  · rw [Bool.eq_false_iff.mpr hf]
    simp only [Bool.false_eq_true, if_false]
    exact syncPostsLoop_all_cached _ _ _ _ _
      (fun t ht hv => h t (List.take_subset _ _ ht) hv)

/-- The single-tweet pass on a fresh valid tweet: fan out to every
destination, then mark the tweet synced. -/
theorem syncPosts_single_fresh (maxCached : Nat) (hN : 0 < maxCached)
    (syncs : List Synchronizer) (db : SyncDB) (t : Tweet)
    (hflt : ((syncs.filter (fun s => s.hasSyncPost)).length == 0) = false)
    (hval : t.valid = true) (hnew : postCached db t.id = false) :
    syncPosts false maxCached syncs db [t] =
      ⟨upsertTweetSynced (processDestinations t db syncs).1 t.id,
        (processDestinations t db syncs).2.1,
        (processDestinations t db syncs).2.2, [t.id]⟩ := by
  unfold syncPosts
  rw [hflt]
  simp only [Bool.false_eq_true, if_false]
  show syncPostsLoop false maxCached syncs db 0 [t] = _
  have hc : ¬ maxCached ≤ 0 := by omega
  simp only [syncPostsLoop, hc, if_false, hval, Bool.not_true, Bool.false_eq_true, hnew,
    Bool.not_false, Bool.false_and, if_true, List.append_nil]

/-- C1 (partial-destination-failure isolation): in a pass over a feed holding
a not-yet-synced valid post, when destination `A` offers `syncPost` but
throws on every retry attempt while destination `B` offers `syncPost` and
succeeds, then `B`'s delivery record is inserted and its call recorded, the
post is marked synced after the fan-out, `A`'s failure is logged as an error
(the pass terminates normally rather than propagating it, and `B` was still
attempted), and a later pass over the same feed - the post now being marked
synced - makes no `syncPost` call at all, so `A` is not re-attempted. -/
theorem partial_destination_failure_isolation
    (maxCached : Nat) (hN : 0 < maxCached) (syncs : List Synchronizer) (db : SyncDB)
    (t : Tweet) (A B : Synchronizer) (hAmem : A ∈ syncs) (hBmem : B ∈ syncs)
    (hval : t.valid = true) (hnew : postCached db t.id = false)
    (hAcap : A.hasSyncPost = true)
    (hAfail : ∀ i, i ≤ 3 → ∃ e, A.attempts t.id i = Except.error e)
    (hBcap : B.hasSyncPost = true) (st : Option String)
    (hBok : withRetry (B.attempts t.id) 3 = Except.ok st) :
    tweetMapHas (syncPosts false maxCached syncs db [t]).db t.id B.platformId = true ∧
    lookupSyncedFlag (syncPosts false maxCached syncs db [t]).db t.id = some 1 ∧
    (A.platformId, t.id) ∈ (syncPosts false maxCached syncs db [t]).errors ∧
    (B.platformId, t.id) ∈ (syncPosts false maxCached syncs db [t]).calls ∧
    (syncPosts false maxCached syncs (syncPosts false maxCached syncs db [t]).db [t]).calls = [] := by
  have hBf : B ∈ syncs.filter (fun s => s.hasSyncPost) := List.mem_filter.mpr ⟨hBmem, hBcap⟩
  have hflt : ((syncs.filter (fun s => s.hasSyncPost)).length == 0) = false := by
    rcases hq : syncs.filter (fun s => s.hasSyncPost) with _ | ⟨a, l⟩
    · rw [hq] at hBf
      cases hBf
    · rw [hq]
      simp
  rw [syncPosts_single_fresh maxCached hN syncs db t hflt hval hnew]
  obtain ⟨hcall, hhas⟩ := processDestinations_success t db syncs B hBmem hBcap st hBok
  have hsynced : lookupSyncedFlag
      (upsertTweetSynced (processDestinations t db syncs).1 t.id) t.id = some 1 :=
    lookupSyncedFlag_upsert _ _
  refine ⟨?_, hsynced, processDestinations_failure t db syncs A hAmem hAcap hAfail, hcall, ?_⟩
  · rw [tweetMapHas_upsertTweetSynced]
    exact hhas
  · apply (syncPosts_all_cached maxCached syncs _ [t] ?_).1
    intro t' ht' _
    rcases List.mem_singleton.mp ht' with rfl
    unfold postCached
    rw [hsynced]
    rfl

/-- Concrete run of C1: destinations `platA` (always throws) and `platB`
(succeeds) over one fresh valid tweet. -/
def tweet0 : Tweet := ⟨"100", "hello", true⟩

def syncA : Synchronizer := ⟨"platA", true, fun _ _ => Except.error "boom"⟩

def syncB : Synchronizer := ⟨"platB", true, fun _ _ => Except.ok (some "rec")⟩

def db0 : SyncDB := ⟨[], []⟩

theorem partial_destination_failure_isolation_witness :
    tweetMapHas (syncPosts false 5 [syncA, syncB] db0 [tweet0]).db "100" "platB" = true ∧
    lookupSyncedFlag (syncPosts false 5 [syncA, syncB] db0 [tweet0]).db "100" = some 1 ∧
    ("platA", "100") ∈ (syncPosts false 5 [syncA, syncB] db0 [tweet0]).errors ∧
    ("platB", "100") ∈ (syncPosts false 5 [syncA, syncB] db0 [tweet0]).calls ∧
    (syncPosts false 5 [syncA, syncB]
      (syncPosts false 5 [syncA, syncB] db0 [tweet0]).db [tweet0]).calls = [] := by
  have h := partial_destination_failure_isolation 5 (by decide) [syncA, syncB] db0 tweet0
    syncA syncB (List.Mem.head _) (List.Mem.tail _ (List.Mem.head _)) rfl rfl rfl
    (fun i _ => ⟨"boom", rfl⟩) rfl (some "rec") rfl
  simpa [syncA, syncB, tweet0] using h

/-- C2 (dedup idempotence): a pass over a feed in which every returned post
is already marked synced, with force-resync off, makes zero `syncPost` calls
and leaves the database - in particular the delivery-record table -
unchanged; and a delivery-record insert whose (post id, platform) pair
already exists is a no-op. -/
theorem dedup_idempotence (maxCached : Nat) (syncs : List Synchronizer) (db : SyncDB)
    (feed : List Tweet) (h : ∀ t ∈ feed, postCached db t.id = true) :
    ((syncPosts false maxCached syncs db feed).calls = [] ∧
      (syncPosts false maxCached syncs db feed).db = db) ∧
    ∀ (db' : SyncDB) (id pf store : String), tweetMapHas db' id pf = true →
      insertTweetMap db' id pf store = db' := by
  refine ⟨syncPosts_all_cached _ _ _ _ (fun t ht _ => h t ht), ?_⟩
  intro db' id pf store hdup
  unfold insertTweetMap
  rw [hdup]
  rfl

theorem dedup_idempotence_witness :
    ((syncPosts false 5 [syncA, syncB] ⟨[("100", 1)], [("100", "platB", "rec")]⟩ [tweet0]).calls = [] ∧
      (syncPosts false 5 [syncA, syncB] ⟨[("100", 1)], [("100", "platB", "rec")]⟩ [tweet0]).db =
        ⟨[("100", 1)], [("100", "platB", "rec")]⟩) ∧
    insertTweetMap ⟨[("100", 1)], [("100", "platB", "rec")]⟩ "100" "platB" "other" =
      ⟨[("100", 1)], [("100", "platB", "rec")]⟩ := by
  have h := dedup_idempotence 5 [syncA, syncB] ⟨[("100", 1)], [("100", "platB", "rec")]⟩ [tweet0]
    (by intro t ht; rcases List.mem_singleton.mp ht with rfl; rfl)
  exact ⟨h.1, h.2 _ "100" "platB" "other" rfl⟩

/-- C4 (early-stop correctness): when the first `maxCached` items of the
newest-first feed are valid posts already marked synced, the pass makes zero
`syncPost` calls and the validity / dedup checks only ever run on items of
that prefix - the loop breaks as soon as the consecutive-cached counter
reaches the cutoff, before examining the next item. -/
theorem early_stop_correctness (maxCached : Nat) (syncs : List Synchronizer) (db : SyncDB)
    (feed : List Tweet)
    (h : ∀ t ∈ feed.take maxCached, t.valid = true ∧ postCached db t.id = true) :
    (syncPosts false maxCached syncs db feed).calls = [] ∧
      ∀ id ∈ (syncPosts false maxCached syncs db feed).examined,
        id ∈ (feed.take maxCached).map Tweet.id := by
  unfold syncPosts
  by_cases hf : ((syncs.filter (fun s => s.hasSyncPost)).length == 0) = true
  · simp [hf]
  · rw [Bool.eq_false_iff.mpr hf]
    simp only [Bool.false_eq_true, if_false]
    have hsub : (feed.take 200).take (maxCached - 0) ⊆ feed.take maxCached := by
      rw [List.take_take, Nat.sub_zero]
      intro x hx
      exact take_mono_subset feed _ _ (min_le_left _ _) hx
    obtain ⟨hcalls, _, hex⟩ := syncPostsLoop_prefix_cached maxCached syncs db (feed.take 200) 0
      (fun t ht => h t (hsub ht))
    refine ⟨hcalls, ?_⟩
    intro id hid
    have hmem := hex id hid
    rw [Nat.sub_zero, List.take_take] at hmem
    rcases List.mem_map.mp hmem with ⟨t, ht, rfl⟩
    exact List.mem_map_of_mem _ (take_mono_subset feed _ _ (min_le_left _ _) ht)

def tweet1 : Tweet := ⟨"99", "older", true⟩

def tweet2 : Tweet := ⟨"98", "oldest", true⟩

theorem early_stop_correctness_witness :
    (syncPosts false 2 [syncA, syncB] ⟨[("100", 1), ("99", 1)], []⟩
      [tweet0, tweet1, tweet2]).calls = [] ∧
    ∀ id ∈ (syncPosts false 2 [syncA, syncB] ⟨[("100", 1), ("99", 1)], []⟩
      [tweet0, tweet1, tweet2]).examined, id ∈ ["100", "99"] := by
  have h := early_stop_correctness 2 [syncA, syncB] ⟨[("100", 1), ("99", 1)], []⟩
    [tweet0, tweet1, tweet2] (by decide)
  refine ⟨h.1, ?_⟩
  intro id hid
  have := h.2 id hid
  simpa [tweet0, tweet1, tweet2] using this

/-! ## Profile sync (src/sync/sync-profile.ts)

`download` (utils/medias/download-media) and `blobHash`
(utils/medias/get-blob-hash) are external media helpers, modelled as
parameters: `download` maps a URL to the fetched bytes, `blobHash` maps
bytes to their content fingerprint. -/

structure ProfileCacheRow where
  pfpHash : String
  bannerHash : String
  pfpUrl : String
  bannerUrl : String
deriving DecidableEq, Repr

structure UpsertCacheResult where
  pfpChanged : Bool
  bannerChanged : Bool
  pfpDownloaded : Bool
  bannerDownloaded : Bool
  row : ProfileCacheRow
deriving DecidableEq, Repr

/-- Does `pat` occur as a leading segment of `s`? -/
def matchesAt : List Char → List Char → Bool
  | [], _ => true
  | _ :: _, [] => false
  | p :: ps, c :: cs => p == c && matchesAt ps cs

def replaceFirstAux (pat repl : List Char) : List Char → List Char
  | [] => []
  | c :: cs =>
    if matchesAt pat (c :: cs) then repl ++ (c :: cs).drop pat.length
    else c :: replaceFirstAux pat repl cs

/-- JavaScript `String.prototype.replace` with a plain-string pattern:
replace the first occurrence only. -/
def jsReplaceOnce (s pat repl : String) : String :=
  String.mk (replaceFirstAux pat.toList repl.toList s.toList)

/-- `upsertProfileCache`: compare the incoming avatar / banner URLs against
the cached row (missing row or field reads as `""`), download and fingerprint
only when the URL differs, flag "changed" only when the fingerprint also
differs, then unconditionally overwrite the cache row with the new URLs and
the freshly computed hashes (the hash variables stay `""` when no download
happened). -/
def upsertProfileCache (download blobHash : String → String)
    (row? : Option ProfileCacheRow) (pfpUrl bannerUrl : String) : UpsertCacheResult :=
  let cPfpUrl := match row? with | some r => r.pfpUrl | none => ""
  let cPfpHash := match row? with | some r => r.pfpHash | none => ""
  let pfpStep : String × Bool × Bool :=
    if cPfpUrl != pfpUrl then
      let h := blobHash (download pfpUrl)
      (h, h != cPfpHash, true)
    else ("", false, false)
  let cBannerUrl := match row? with | some r => r.bannerUrl | none => ""
  let cBannerHash := match row? with | some r => r.bannerHash | none => ""
  let bannerStep : String × Bool × Bool :=
    if cBannerUrl != bannerUrl then
      let h := blobHash (download bannerUrl)
      (h, h != cBannerHash, true)
    else ("", false, false)
  { pfpChanged := pfpStep.2.1
    bannerChanged := bannerStep.2.1
    pfpDownloaded := pfpStep.2.2
    bannerDownloaded := bannerStep.2.2
    row := ⟨pfpStep.1, bannerStep.1, pfpUrl, bannerUrl⟩ }

structure Profile where
  name : Option String
  biography : Option String
  avatar : Option String
  banner : Option String
deriving DecidableEq, Repr

/-- A destination as seen by the profile pass: which of the optional
capabilities it offers. -/
structure ProfileSynchronizer where
  platformId : String
  hasSyncBio : Bool
  hasSyncUserName : Bool
  hasSyncProfilePic : Bool
  hasSyncBanner : Bool
deriving DecidableEq, Repr

/-- `profile.avatar?.replace("_normal", "") ?? ""`. -/
def profilePfpUrl (profile : Profile) : String :=
  match profile.avatar with
  | some a => jsReplaceOnce a "_normal" ""
  | none => ""

/-- `profile.banner ?? ""`. -/
def profileBannerUrl (profile : Profile) : String :=
  match profile.banner with
  | some b => b
  | none => ""

/-- Observable outcome of one profile pass: the written cache row, whether
each image was downloaded, and which destinations each sync dimension fanned
out to. -/
structure ProfileSyncResult where
  cache : ProfileCacheRow
  pfpDownloaded : Bool
  bannerDownloaded : Bool
  pfpSyncCalls : List String
  bannerSyncCalls : List String
  bioSyncCalls : List String
  nameSyncCalls : List String
deriving DecidableEq, Repr

/-- `syncProfile`: run the cache upsert, then fan each dimension out to the
destinations offering the matching capability; avatar / banner jobs run only
when the toggle is on, the fingerprint check reported a change, and a blob
was downloaded; bio and name are gated only by their toggles and
non-emptiness. -/
def syncProfile (download blobHash : String → String)
    (shouldSyncDescription shouldSyncPicture shouldSyncName shouldSyncHeader : Bool)
    (syncs : List ProfileSynchronizer) (row? : Option ProfileCacheRow)
    (profile : Profile) : ProfileSyncResult :=
  let pfpUrl := profilePfpUrl profile
  let bannerUrl := profileBannerUrl profile
  let r := upsertProfileCache download blobHash row? pfpUrl bannerUrl
  let bioTruthy := match profile.biography with | some b => b != "" | none => false
  let nameTruthy := match profile.name with | some n => n != "" | none => false
  { cache := r.row
    pfpDownloaded := r.pfpDownloaded
    bannerDownloaded := r.bannerDownloaded
    pfpSyncCalls :=
      if shouldSyncPicture && r.pfpChanged && r.pfpDownloaded then
        (syncs.filter (fun s => s.hasSyncProfilePic)).map (fun s => s.platformId)
      else []
    bannerSyncCalls :=
      if shouldSyncHeader && r.bannerChanged && r.bannerDownloaded then
        (syncs.filter (fun s => s.hasSyncBanner)).map (fun s => s.platformId)
      else []
    bioSyncCalls :=
      if shouldSyncDescription && bioTruthy then
        (syncs.filter (fun s => s.hasSyncBio)).map (fun s => s.platformId)
      else []
    nameSyncCalls :=
      if shouldSyncName && nameTruthy then
        (syncs.filter (fun s => s.hasSyncUserName)).map (fun s => s.platformId)
      else [] }

/-- Closed form of `upsertProfileCache` against an existing cache row. -/
theorem upsertProfileCache_spec (download blobHash : String → String)
    (stored : ProfileCacheRow) (u b : String) :
    upsertProfileCache download blobHash (some stored) u b =
      { pfpChanged := (stored.pfpUrl != u) && (blobHash (download u) != stored.pfpHash)
        bannerChanged := (stored.bannerUrl != b) && (blobHash (download b) != stored.bannerHash)
        pfpDownloaded := stored.pfpUrl != u
        bannerDownloaded := stored.bannerUrl != b
        row := ⟨if stored.pfpUrl != u then blobHash (download u) else "",
                if stored.bannerUrl != b then blobHash (download b) else "",
                u, b⟩ } := by
  unfold upsertProfileCache
  by_cases hu : (stored.pfpUrl != u) = true <;>
    by_cases hb : (stored.bannerUrl != b) = true <;>
      simp [hu, hb]

/-- C5 (profile fingerprint gating): against the cache row written by the
previous pass - same account - (a) an unchanged avatar or banner URL causes
no download; (b) a changed URL whose downloaded bytes fingerprint to the
stored hash causes no destination sync call for that image; and (c) the
cached URLs and fingerprints are overwritten unconditionally after the check
(the hash field receiving the freshly computed fingerprint when a download
happened and the empty sentinel otherwise). -/
theorem profile_fingerprint_gating (download blobHash : String → String)
    (sd sp sn sh : Bool) (syncs : List ProfileSynchronizer)
    (stored : ProfileCacheRow) (profile : Profile) :
    (profilePfpUrl profile = stored.pfpUrl →
      (syncProfile download blobHash sd sp sn sh syncs (some stored) profile).pfpDownloaded = false) ∧
    (profileBannerUrl profile = stored.bannerUrl →
      (syncProfile download blobHash sd sp sn sh syncs (some stored) profile).bannerDownloaded = false) ∧
    (profilePfpUrl profile ≠ stored.pfpUrl →
      blobHash (download (profilePfpUrl profile)) = stored.pfpHash →
      (syncProfile download blobHash sd sp sn sh syncs (some stored) profile).pfpSyncCalls = []) ∧
    (profileBannerUrl profile ≠ stored.bannerUrl →
      blobHash (download (profileBannerUrl profile)) = stored.bannerHash →
      (syncProfile download blobHash sd sp sn sh syncs (some stored) profile).bannerSyncCalls = []) ∧
    (syncProfile download blobHash sd sp sn sh syncs (some stored) profile).cache.pfpUrl =
      profilePfpUrl profile ∧
    (syncProfile download blobHash sd sp sn sh syncs (some stored) profile).cache.bannerUrl =
      profileBannerUrl profile ∧
    (syncProfile download blobHash sd sp sn sh syncs (some stored) profile).cache.pfpHash =
      (if stored.pfpUrl != profilePfpUrl profile
        then blobHash (download (profilePfpUrl profile)) else "") ∧
    (syncProfile download blobHash sd sp sn sh syncs (some stored) profile).cache.bannerHash =
      (if stored.bannerUrl != profileBannerUrl profile
        then blobHash (download (profileBannerUrl profile)) else "") := by
  have hspec := upsertProfileCache_spec download blobHash stored
    (profilePfpUrl profile) (profileBannerUrl profile)
  refine ⟨?_, ?_, ?_, ?_, ?_, ?_, ?_, ?_⟩
  · intro h
    simp only [syncProfile, hspec]
    simp [h]
  · intro h
    simp only [syncProfile, hspec]
    simp [h]
  · intro _ h2
    simp only [syncProfile, hspec]
    simp [h2]
  · intro _ h2
    simp only [syncProfile, hspec]
    simp [h2]
  · simp [syncProfile, hspec]
  · simp [syncProfile, hspec]
  · simp [syncProfile, hspec]
  · simp [syncProfile, hspec]

def storedRow0 : ProfileCacheRow := ⟨"h1", "h2", "u1", "b1"⟩

def profileSameUrls : Profile := ⟨some "Name", some "bio", some "u1", some "b1"⟩

def profileNewUrls : Profile := ⟨some "Name", some "bio", some "u2", some "b2"⟩

def blobHash0 : String → String :=
  fun s => if s == "u2" then "h1" else if s == "b2" then "h2" else "hX"

theorem profile_fingerprint_gating_witness :
    ((syncProfile id blobHash0 true true true true [] (some storedRow0)
        profileSameUrls).pfpDownloaded = false ∧
      (syncProfile id blobHash0 true true true true [] (some storedRow0)
        profileSameUrls).bannerDownloaded = false) ∧
    ((syncProfile id blobHash0 true true true true [] (some storedRow0)
        profileNewUrls).pfpSyncCalls = [] ∧
      (syncProfile id blobHash0 true true true true [] (some storedRow0)
        profileNewUrls).bannerSyncCalls = [] ∧
      (syncProfile id blobHash0 true true true true [] (some storedRow0)
        profileNewUrls).cache = ⟨"h1", "h2", "u2", "b2"⟩) := by
  have hsame := profile_fingerprint_gating id blobHash0 true true true true [] storedRow0
    profileSameUrls
  have hnew := profile_fingerprint_gating id blobHash0 true true true true [] storedRow0
    profileNewUrls
  refine ⟨⟨hsame.1 (by decide), hsame.2.1 (by decide)⟩,
    ⟨hnew.2.2.1 (by decide) (by decide), hnew.2.2.2.1 (by decide) (by decide), ?_⟩⟩
  have h1 := hnew.2.2.2.2.1
  have h2 := hnew.2.2.2.2.2.1
  have h3 := hnew.2.2.2.2.2.2.1
  have h4 := hnew.2.2.2.2.2.2.2
  have hu : profilePfpUrl profileNewUrls = "u2" := by decide
  have hb : profileBannerUrl profileNewUrls = "b2" := by decide
  rw [hu] at h1 h3
  rw [hb] at h2 h4
  have h3' : (syncProfile id blobHash0 true true true true [] (some storedRow0)
      profileNewUrls).cache.pfpHash = "h1" := by
    rw [h3]
    decide
  have h4' : (syncProfile id blobHash0 true true true true [] (some storedRow0)
      profileNewUrls).cache.bannerHash = "h2" := by
    rw [h4]
    decide
  cases hcache : (syncProfile id blobHash0 true true true true [] (some storedRow0)
      profileNewUrls).cache
  rw [hcache] at h1 h2 h3' h4'
  simp_all

/-! ## Command parser (src/sync/commands/command-parser.ts)

`parseCommand` first normalizes whitespace (`text.replace(/\s+/g, " ").trim()`),
then probes a fixed sequence of case-insensitive regexes, all anchored at
`(?:^|\s)` - i.e. at the start of a whitespace-delimited token.  `!restart`,
`!sync`, `!help` and `!status` additionally require a word boundary after the
name; `!source`, `!frequency` and the six toggles do not, and take an optional
argument only when the matched token is exactly the command name and another
token follows. -/

def lowerStr (s : String) : String := String.mk (s.toList.map Char.toLower)

/-- JavaScript `\w`: ASCII letters, digits and underscore. -/
def isWordChar (c : Char) : Bool := c.isAlphanum || c == '_'

def splitWsAux : List Char → List Char → List (List Char)
  | [], acc => if acc.isEmpty then [] else [acc.reverse]
  | c :: rest, acc =>
    if c.isWhitespace then
      if acc.isEmpty then splitWsAux rest [] else acc.reverse :: splitWsAux rest []
    else splitWsAux rest (c :: acc)

/-- The whitespace-delimited tokens of the normalized text. -/
def tokenize (text : String) : List String :=
  (splitWsAux text.toList []).map String.mk

/-- `(?:^|\s)!name\b` tested against one token: the token starts with the
command name and the next character, if any, is not a word character. -/
def tokenWordCmd (cmdTok : String) (w : String) : Bool :=
  let lw := (lowerStr w).toList
  let p := cmdTok.toList
  lw.take p.length == p &&
    (match lw.drop p.length with
     | [] => true
     | c :: _ => !isWordChar c)

/-- `(?:^|\s)!name` without a trailing word boundary: token starts with the
command name. -/
def tokenPfxCmd (cmdTok : String) (w : String) : Bool :=
  (lowerStr w).toList.take cmdTok.length == cmdTok.toList

/-- Leftmost token carrying the command name as a prefix; the optional
`(?:\s+@?(\S+))?` argument group matches only when that token is exactly the
command name and a further token follows. `none`: no token matched;
`some none`: matched without argument; `some (some a)`: matched with
argument token `a`. -/
def findPfxArg (cmdTok : String) : List String → Option (Option String)
  | [] => none
  | w :: rest =>
    if tokenPfxCmd cmdTok w then
      some (if lowerStr w == cmdTok then
              match rest with
              | a :: _ => some a
              | [] => none
            else none)
    else findPfxArg cmdTok rest

def headIsAt (s : String) : Bool :=
  match s.toList with
  | c :: _ => c == '@'
  | [] => false

def dropOne (s : String) : String := String.mk (s.toList.drop 1)

/-- Net effect of the `@?(\S+)` capture followed by
`handle.replace(/^@/, "")` on the argument token. -/
def sourceHandleArg (tok : String) : String :=
  let c := if 2 ≤ tok.toList.length && headIsAt tok then dropOne tok else tok
  if headIsAt c then dropOne c else c

inductive CmdType
  | restart | sync | source | status | help | frequency
  | posts | bio | avatar | name | header | backdate
deriving DecidableEq, Repr

def cmdTypeName : CmdType → String
  | CmdType.restart => "restart"
  | CmdType.sync => "sync"
  | CmdType.source => "source"
  | CmdType.status => "status"
  | CmdType.help => "help"
  | CmdType.frequency => "frequency"
  | CmdType.posts => "posts"
  | CmdType.bio => "bio"
  | CmdType.avatar => "avatar"
  | CmdType.name => "name"
  | CmdType.header => "header"
  | CmdType.backdate => "backdate"

structure ParsedCommand where
  type : CmdType
  args : List String
  raw : String
deriving DecidableEq, Repr

def TOGGLE_COMMANDS : List (String × CmdType) :=
  [("posts", CmdType.posts), ("bio", CmdType.bio), ("avatar", CmdType.avatar),
   ("name", CmdType.name), ("header", CmdType.header), ("backdate", CmdType.backdate)]

def parseToggleCmds (ws : List String) (raw : String) :
    List (String × CmdType) → Option ParsedCommand
  | [] => none
  | (nm, ty) :: rest =>
    match findPfxArg ("!" ++ nm) ws with
    | some a =>
      some { type := ty
             args := match a with | some s => [lowerStr s] | none => []
             raw := raw }
    | none => parseToggleCmds ws raw rest

def parseCommand (text : String) : Option ParsedCommand :=
  let ws := tokenize text
  let raw := " ".intercalate ws
  if ws.any (tokenWordCmd "!restart") then some ⟨CmdType.restart, [], raw⟩
  else if ws.any (tokenWordCmd "!sync") then some ⟨CmdType.sync, [], raw⟩
  else
    match findPfxArg "!source" ws with
    | some a =>
      some ⟨CmdType.source, (match a with | some h => [sourceHandleArg h] | none => []), raw⟩
    | none =>
      if ws.any (tokenWordCmd "!help") then some ⟨CmdType.help, [], raw⟩
      else if ws.any (tokenWordCmd "!status") then some ⟨CmdType.status, [], raw⟩
      else
        match findPfxArg "!frequency" ws with
        | some a =>
          some ⟨CmdType.frequency, (match a with | some s => [s] | none => []), raw⟩
        | none => parseToggleCmds ws raw TOGGLE_COMMANDS

/-! ## Command channel (src/sync/commands/command-types.ts, `CommandPoller`) -/

structure ResponseMessages where
  restart : String
  sync : String
  source : String
  sourceChanged : String
  unauthorized : String
  error : String
  unknown : String
  help : String
  status : String
  settingChanged : String
  invalidValue : String
  pin : String
  unpin : String
  mute : String
  unmute : String
  last : String
  stats : String
deriving DecidableEq, Repr

def DEFAULT_RESPONSES : ResponseMessages where
  restart := "Restarting bot..."
  sync := "Sync triggered!"
  source := "Current source: @{handle}"
  sourceChanged := "Source changed to @{handle}. Restarting..."
  unauthorized := "You are not authorized to use commands."
  error := "Command failed: {error}"
  unknown := "Unknown command. Available: !sync, !restart, !source, !status, !frequency, !posts, !bio, !avatar, !name, !header, !backdate, !pin, !unpin, !mute, !unmute, !last, !stats, !help"
  help := "Commands: !sync, !restart, !source, !status, !frequency, !posts, !bio, !avatar, !name, !header, !backdate, !pin, !unpin, !mute, !unmute, !last, !stats, !help"
  status := "{status}"
  settingChanged := "{setting} set to {value}."
  invalidValue := "Invalid value for !{command}. {hint}"
  pin := "Post pinned!"
  unpin := "Post unpinned!"
  mute := "Bot muted. Syncing paused until !unmute."
  unmute := "Bot unmuted. Syncing resumed."
  last := "{url}"
  stats := "{stats}"

structure CommandConfig where
  enabled : Bool
  trustedHandles : List String
  pollIntervalSec : Nat
  responseMessages : Option ResponseMessages
deriving DecidableEq, Repr

/-- One Bluesky notification as consumed by the poller. -/
structure Notification where
  reason : String
  authorHandle : String
  authorDid : String
  indexedAt : String
  text : String
deriving DecidableEq, Repr

/-- The poller's cursor state: the in-memory `this.lastSeenAt` and the row
persisted through `onLastSeenAtUpdate`. -/
structure PollerState where
  lastSeenAt : Option String
  persistedLastSeenAt : Option String
deriving DecidableEq, Repr

inductive SettingVal
  | num (n : Int)
  | flag (b : Bool)
deriving DecidableEq, Repr

inductive ExecCall
  | restartBot
  | syncNow
  | changeSource (handle : String)
  | getSource
  | getStatus
  | setSetting (key : String) (value : SettingVal)
deriving DecidableEq, Repr

/-- Observable actions of the poller, in program order: the durable cursor
write, the unauthorized warning log, outgoing replies (threaded onto the
mention, identified here by its timestamp), and executor invocations. -/
inductive CmdEvent
  | persistCursor (ts : String)
  | warnLog (msg : String)
  | reply (mentionTs : String) (text : String)
  | exec (call : ExecCall)
deriving DecidableEq, Repr

/-- Outcomes of the executor capability (implemented by the Manager); an
`error` models the call throwing. -/
structure CommandExecutor where
  restartRes : Except String Unit
  syncRes : Except String Unit
  changeSourceRes : String → Except String Unit
  getSourceRes : Except String String
  getStatusRes : Except String String
  setSettingRes : String → SettingVal → Except String Unit

def errorReply (resp : ResponseMessages) (m : Notification) (e : String) : CmdEvent :=
  CmdEvent.reply m.indexedAt (jsReplaceOnce resp.error "{error}" e)

def parseToggle (arg : Option String) : Option Bool :=
  match arg with
  | none => none
  | some a =>
    let l := lowerStr a
    if l == "on" || l == "true" || l == "1" then some true
    else if l == "off" || l == "false" || l == "0" then some false
    else none

def capitalizeStr (s : String) : String :=
  match s.toList with
  | [] => ""
  | c :: rest => String.mk (c.toUpper :: rest)

/-- JavaScript `parseInt(s, 10)`: skip leading whitespace, optional sign,
then leading decimal digits; `none` models `NaN`. -/
def jsParseInt (s : String) : Option Int :=
  let cs := s.toList.dropWhile Char.isWhitespace
  let signed : Int × List Char :=
    match cs with
    | '-' :: t => (-1, t)
    | '+' :: t => (1, t)
    | _ => (1, cs)
  let ds := signed.2.takeWhile Char.isDigit
  if ds.isEmpty then none
  else some (signed.1 * (ds.foldl (fun acc c => acc * 10 + (c.toNat - '0'.toNat)) 0 : Nat))

/-- The shared body of the six boolean-toggle cases of the dispatch switch. -/
def toggleDispatch (ex : CommandExecutor) (resp : ResponseMessages) (m : Notification)
    (c : ParsedCommand) : List CmdEvent :=
  let nm := cmdTypeName c.type
  match parseToggle c.args.head? with
  | none =>
    [CmdEvent.reply m.indexedAt (jsReplaceOnce (jsReplaceOnce resp.invalidValue "{command}" nm)
      "{hint}" (jsReplaceOnce "Usage: !{cmd} on/off" "{cmd}" nm))]
  | some b =>
    CmdEvent.exec (ExecCall.setSetting nm (SettingVal.flag b)) ::
      (match ex.setSettingRes nm (SettingVal.flag b) with
       | Except.ok _ =>
         [CmdEvent.reply m.indexedAt (jsReplaceOnce (jsReplaceOnce resp.settingChanged
           "{setting}" (capitalizeStr nm)) "{value}" (if b then "on" else "off"))]
       | Except.error e => [errorReply resp m e])

/-- The `switch (command.type)` of `processMention`, inside its try/catch: a
throwing executor call is caught and answered with the error template. -/
def runDispatch (ex : CommandExecutor) (resp : ResponseMessages) (m : Notification)
    (c : ParsedCommand) : List CmdEvent :=
  match c.type with
  | CmdType.restart =>
    CmdEvent.reply m.indexedAt resp.restart :: CmdEvent.exec ExecCall.restartBot ::
      (match ex.restartRes with
       | Except.ok _ => []
       | Except.error e => [errorReply resp m e])
  | CmdType.sync =>
    CmdEvent.exec ExecCall.syncNow ::
      (match ex.syncRes with
       | Except.ok _ => [CmdEvent.reply m.indexedAt resp.sync]
       | Except.error e => [errorReply resp m e])
  | CmdType.source =>
    match c.args with
    | h :: _ =>
      CmdEvent.reply m.indexedAt (jsReplaceOnce resp.sourceChanged "{handle}" h) ::
        CmdEvent.exec (ExecCall.changeSource h) ::
        (match ex.changeSourceRes h with
         | Except.ok _ => []
         | Except.error e => [errorReply resp m e])
    | [] =>
      CmdEvent.exec ExecCall.getSource ::
        (match ex.getSourceRes with
         | Except.ok cur => [CmdEvent.reply m.indexedAt (jsReplaceOnce resp.source "{handle}" cur)]
         | Except.error e => [errorReply resp m e])
  | CmdType.help => [CmdEvent.reply m.indexedAt resp.help]
  | CmdType.status =>
    CmdEvent.exec ExecCall.getStatus ::
      (match ex.getStatusRes with
       | Except.ok stText =>
         [CmdEvent.reply m.indexedAt (jsReplaceOnce resp.status "{status}" stText)]
       | Except.error e => [errorReply resp m e])
  | CmdType.frequency =>
    match c.args with
    | [] =>
      [CmdEvent.reply m.indexedAt (jsReplaceOnce (jsReplaceOnce resp.invalidValue
        "{command}" "frequency") "{hint}" "Usage: !frequency <minutes>")]
    | a :: _ =>
      match jsParseInt a with
      | none =>
        [CmdEvent.reply m.indexedAt (jsReplaceOnce (jsReplaceOnce resp.invalidValue
          "{command}" "frequency") "{hint}" "Must be a number >= 1.")]
      | some minutes =>
        if minutes < 1 then
          [CmdEvent.reply m.indexedAt (jsReplaceOnce (jsReplaceOnce resp.invalidValue
            "{command}" "frequency") "{hint}" "Must be a number >= 1.")]
        else
          CmdEvent.exec (ExecCall.setSetting "frequency" (SettingVal.num minutes)) ::
            (match ex.setSettingRes "frequency" (SettingVal.num minutes) with
             | Except.ok _ =>
               [CmdEvent.reply m.indexedAt (jsReplaceOnce (jsReplaceOnce resp.settingChanged
                 "{setting}" "Frequency") "{value}" (toString minutes ++ " min"))]
             | Except.error e => [errorReply resp m e])
  | CmdType.posts => toggleDispatch ex resp m c
  | CmdType.bio => toggleDispatch ex resp m c
  | CmdType.avatar => toggleDispatch ex resp m c
  | CmdType.name => toggleDispatch ex resp m c
  | CmdType.header => toggleDispatch ex resp m c
  | CmdType.backdate => toggleDispatch ex resp m c

/-- `CommandPoller.processMention`: persist the advanced cursor first, then
check the trusted allow-list (an untrusted author is logged and ignored -
no reply), then parse (unparsable text gets the unknown-command reply), then
dispatch.  The prior state is overwritten, not consulted. -/
def processMention (cfg : CommandConfig) (ex : CommandExecutor) (_st : PollerState)
    (m : Notification) : PollerState × List CmdEvent :=
  let responses := match cfg.responseMessages with
    | some r => r
    | none => DEFAULT_RESPONSES
  let st1 : PollerState :=
    { lastSeenAt := some m.indexedAt, persistedLastSeenAt := some m.indexedAt }
  let isTrusted := cfg.trustedHandles.any (fun h => lowerStr h == lowerStr m.authorHandle)
  if !isTrusted then
    (st1, [CmdEvent.persistCursor m.indexedAt,
      CmdEvent.warnLog ("Unauthorized command attempt from @" ++ m.authorHandle ++ ": " ++ m.text)])
  else
    match parseCommand m.text with
    | none =>
      (st1, [CmdEvent.persistCursor m.indexedAt, CmdEvent.reply m.indexedAt responses.unknown])
    | some c => (st1, CmdEvent.persistCursor m.indexedAt :: runDispatch ex responses m c)

/- String timestamps (ISO-8601) are compared as JavaScript compares them:
code-unit lexicographically.  The comparisons below go through `.toList`
so that the lexicographic order on `List Char` is used. -/

def insertByTime (n : Notification) : List Notification → List Notification
  | [] => [n]
  | m :: rest =>
    if n.indexedAt.toList ≤ m.indexedAt.toList then n :: m :: rest
    else m :: insertByTime n rest

/-- `.sort((a, b) => a.indexedAt.localeCompare(b.indexedAt))` - ascending,
oldest first. -/
def sortByIndexedAt : List Notification → List Notification
  | [] => []
  | n :: rest => insertByTime n (sortByIndexedAt rest)

/-- The `mentions` batch of one `poll` tick: mention-reason notifications,
strictly newer than the cursor, not authored by the bot itself, sorted
ascending by time. -/
def pollBatch (selfIdentifier : String) (selfDid : Option String)
    (lastSeenAt : Option String) (notifs : List Notification) : List Notification :=
  let allMentions := notifs.filter (fun n => n.reason == "mention")
  let newMentions := allMentions.filter (fun n =>
    match lastSeenAt with
    | none => true
    | some t => decide (t.toList < n.indexedAt.toList))
  let mentions := newMentions.filter (fun n =>
    n.authorHandle != selfIdentifier &&
      (match selfDid with
       | some d => n.authorDid != d
       | none => true))
  sortByIndexedAt mentions

def processAll (cfg : CommandConfig) (ex : CommandExecutor) :
    PollerState → List Notification → PollerState × List CmdEvent
  | st, [] => (st, [])
  | st, m :: rest =>
    let r1 := processMention cfg ex st m
    let r2 := processAll cfg ex r1.1 rest
    (r2.1, r1.2 ++ r2.2)

/-- One `poll` tick: compute the batch from the current cursor, then process
its mentions sequentially, oldest first. -/
def poll (cfg : CommandConfig) (ex : CommandExecutor) (selfIdentifier : String)
    (selfDid : Option String) (st : PollerState) (notifs : List Notification) :
    PollerState × List CmdEvent :=
  processAll cfg ex st (pollBatch selfIdentifier selfDid st.lastSeenAt notifs)

def hasOccurrence (pat : List Char) : List Char → Bool
  | [] => matchesAt pat []
  | c :: cs => matchesAt pat (c :: cs) || hasOccurrence pat cs

def strContains (s pat : String) : Bool := hasOccurrence pat.toList s.toList

/-! ### Lemmas about the command channel -/

/-- The poller state after `processMention` always carries the mention's
timestamp, in memory and persisted, whatever branch ran. -/
theorem processMention_state (cfg : CommandConfig) (ex : CommandExecutor) (st : PollerState)
    (m : Notification) :
    (processMention cfg ex st m).1 = ⟨some m.indexedAt, some m.indexedAt⟩ := by
  unfold processMention
  by_cases h : cfg.trustedHandles.any (fun h => lowerStr h == lowerStr m.authorHandle)
  · simp only [h, Bool.not_true, Bool.false_eq_true, if_false]
    cases parseCommand m.text <;> rfl
  · simp [h]

/-- The first event of `processMention` is always the cursor write. -/
theorem processMention_head (cfg : CommandConfig) (ex : CommandExecutor) (st : PollerState)
    (m : Notification) :
    (processMention cfg ex st m).2.head? = some (CmdEvent.persistCursor m.indexedAt) := by
  unfold processMention
  by_cases h : cfg.trustedHandles.any (fun h => lowerStr h == lowerStr m.authorHandle)
  · simp only [h, Bool.not_true, Bool.false_eq_true, if_false]
    cases parseCommand m.text <;> rfl
  · simp [h]

theorem mem_insertByTime (a n : Notification) (l : List Notification) :
    a ∈ insertByTime n l ↔ a = n ∨ a ∈ l := by
  induction l with
  | nil => simp [insertByTime]
  | cons m rest ih =>
    unfold insertByTime
    by_cases h : n.indexedAt.toList ≤ m.indexedAt.toList
    · rw [if_pos h]
      simp
    · rw [if_neg h]
      simp only [List.mem_cons, ih]
      tauto

theorem mem_sortByIndexedAt (a : Notification) (l : List Notification) :
    a ∈ sortByIndexedAt l ↔ a ∈ l := by
  induction l with
  | nil => simp [sortByIndexedAt]
  | cons m rest ih => simp [sortByIndexedAt, mem_insertByTime, ih]

/-- The ascending-time relation used by the poll batch sort. -/
def timeLe (a b : Notification) : Prop := a.indexedAt.toList ≤ b.indexedAt.toList

theorem pairwise_insertByTime (n : Notification) (l : List Notification)
    (h : l.Pairwise timeLe) : (insertByTime n l).Pairwise timeLe := by
  induction l with
  | nil => simp [insertByTime, timeLe]
  | cons m rest ih =>
    rcases List.pairwise_cons.mp h with ⟨hm, hrest⟩
    unfold insertByTime
    by_cases hle : n.indexedAt.toList ≤ m.indexedAt.toList
    · rw [if_pos hle]
      refine List.Pairwise.cons ?_ h
      intro b hb
      rcases List.mem_cons.mp hb with rfl | hb2
      · exact hle
      · exact le_trans hle (hm b hb2)
    · rw [if_neg hle]
      refine List.Pairwise.cons ?_ (ih hrest)
      intro b hb
      rcases (mem_insertByTime b n rest).mp hb with rfl | hb2
      · exact le_of_not_le hle
      · exact hm b hb2

theorem pairwise_sortByIndexedAt (l : List Notification) :
    (sortByIndexedAt l).Pairwise timeLe := by
  induction l with
  | nil => simp [sortByIndexedAt]
  | cons m rest ih => exact pairwise_insertByTime m _ ih

/-- Processing a nonempty ascending batch leaves the cursor - in memory and
persisted - at the timestamp of some batch member that bounds the whole
batch from above. -/
theorem processAll_cursor (cfg : CommandConfig) (ex : CommandExecutor) (st : PollerState)
    (l : List Notification) (hne : l ≠ []) (hs : l.Pairwise timeLe) :
    ∃ m0 ∈ l, (processAll cfg ex st l).1.lastSeenAt = some m0.indexedAt ∧
      (processAll cfg ex st l).1.persistedLastSeenAt = some m0.indexedAt ∧
      ∀ m ∈ l, m.indexedAt.toList ≤ m0.indexedAt.toList := by
  induction l generalizing st with
  | nil => exact absurd rfl hne
  | cons m rest ih =>
    rcases List.pairwise_cons.mp hs with ⟨hm, hrest⟩
    by_cases hr : rest = []
    · subst hr
      refine ⟨m, List.mem_cons_self _ _, ?_, ?_, ?_⟩
      · show (processAll cfg ex (processMention cfg ex st m).1 []).1.lastSeenAt = _
        rw [processMention_state]
        rfl
      · show (processAll cfg ex (processMention cfg ex st m).1 []).1.persistedLastSeenAt = _
        rw [processMention_state]
        rfl
      · intro m' hm'
        rcases List.mem_singleton.mp hm' with rfl
        exact le_refl _
    · obtain ⟨m0, hm0mem, h1, h2, h3⟩ := ih (processMention cfg ex st m).1 hr hrest
      refine ⟨m0, List.mem_cons_of_mem _ hm0mem, h1, h2, ?_⟩
      intro m' hm'
      rcases List.mem_cons.mp hm' with rfl | hmem
      · exact hm m0 hm0mem
      · exact h3 m' hmem

/-- Every mention of a poll batch computed against cursor `cur` is strictly
newer than `cur`. -/
theorem pollBatch_mem_gt (selfId : String) (selfDid : Option String) (cur : String)
    (notifs : List Notification) (n : Notification)
    (h : n ∈ pollBatch selfId selfDid (some cur) notifs) :
    cur.toList < n.indexedAt.toList := by
  unfold pollBatch at h
  rw [mem_sortByIndexedAt] at h
  have h2 := List.mem_filter.mp h
  have h3 := List.mem_filter.mp h2.1
  exact of_decide_eq_true h3.2

/-- C3 (command cursor monotonicity): for every processed mention, the first
event of `processMention` is the durable cursor write carrying that
mention's timestamp - every executor call and reply comes after it - and the
resulting in-memory and persisted cursors equal that timestamp; a poll
against a persisted cursor only admits mentions with strictly newer
timestamps; hence the very mention whose timestamp was persisted - e.g. when
the command crashed right after persistence - is excluded from every later
poll batch and never re-executed. -/
theorem command_cursor_monotonicity (cfg : CommandConfig) (ex : CommandExecutor)
    (st : PollerState) (m : Notification) :
    ((processMention cfg ex st m).2.head? = some (CmdEvent.persistCursor m.indexedAt) ∧
      (processMention cfg ex st m).1.lastSeenAt = some m.indexedAt ∧
      (processMention cfg ex st m).1.persistedLastSeenAt = some m.indexedAt) ∧
    (∀ (selfId : String) (selfDid : Option String) (cur : String)
        (notifs : List Notification) (n : Notification),
      n ∈ pollBatch selfId selfDid (some cur) notifs → cur.toList < n.indexedAt.toList) ∧
    (∀ (selfId : String) (selfDid : Option String) (notifs : List Notification),
      m ∉ pollBatch selfId selfDid
        (processMention cfg ex st m).1.persistedLastSeenAt notifs) := by
  refine ⟨⟨processMention_head cfg ex st m, ?_, ?_⟩, ?_, ?_⟩
  · rw [processMention_state]
  · rw [processMention_state]
  · exact fun selfId selfDid cur notifs n h => pollBatch_mem_gt selfId selfDid cur notifs n h
  · intro selfId selfDid notifs hmem
    rw [processMention_state] at hmem
    exact absurd (pollBatch_mem_gt selfId selfDid m.indexedAt notifs m hmem) (lt_irrefl _)

def pstate0 : PollerState := ⟨some "a", some "a"⟩

def exec0 : CommandExecutor :=
  { restartRes := Except.ok ()
    syncRes := Except.ok ()
    changeSourceRes := fun _ => Except.ok ()
    getSourceRes := Except.ok "src"
    getStatusRes := Except.ok "ok"
    setSettingRes := fun _ _ => Except.ok () }

def cmdCfg0 : CommandConfig := ⟨true, ["user.bsky.social"], 60, none⟩

def mention0 : Notification := ⟨"mention", "user.bsky.social", "did:plc:u1", "b", "!sync"⟩

theorem command_cursor_monotonicity_witness :
    (processMention cmdCfg0 exec0 pstate0 mention0).2.head? =
      some (CmdEvent.persistCursor "b") ∧
    ("a" : String).toList < ("b" : String).toList ∧
    mention0 ∉ pollBatch "self.bsky" none
      (processMention cmdCfg0 exec0 pstate0 mention0).1.persistedLastSeenAt [mention0] := by
  have h := command_cursor_monotonicity cmdCfg0 exec0 pstate0 mention0
  refine ⟨h.1.1, ?_, h.2.2 "self.bsky" none [mention0]⟩
  exact h.2.1 "self.bsky" none "a" [mention0] mention0 (by
    show mention0 ∈ [mention0]
    exact List.mem_singleton_self _)

/-- C10 (implicit cursor invariant): `processMention` advances and persists
the cursor for every mention unconditionally - the write happens before the
trusted-author check and before parsing, so untrusted and unparsable
mentions are covered - and any mention that was part of one poll batch is
excluded from every later poll batch computed from the poller's subsequent
in-memory or persisted cursor, so it is handled at most once. -/
theorem cursor_advanced_for_every_mention
    (cfg : CommandConfig) (ex : CommandExecutor) (st : PollerState) (m : Notification)
    (selfId : String) (selfDid : Option String) (notifs : List Notification) :
    ((processMention cfg ex st m).1.lastSeenAt = some m.indexedAt ∧
      (processMention cfg ex st m).1.persistedLastSeenAt = some m.indexedAt) ∧
    (m ∈ pollBatch selfId selfDid st.lastSeenAt notifs →
      ∀ notifs2 : List Notification,
        m ∉ pollBatch selfId selfDid
          (poll cfg ex selfId selfDid st notifs).1.lastSeenAt notifs2 ∧
        m ∉ pollBatch selfId selfDid
          (poll cfg ex selfId selfDid st notifs).1.persistedLastSeenAt notifs2) := by
  refine ⟨⟨by rw [processMention_state], by rw [processMention_state]⟩, ?_⟩
  intro hmem notifs2
  have hne : pollBatch selfId selfDid st.lastSeenAt notifs ≠ [] :=
    List.ne_nil_of_mem hmem
  have hsorted : (pollBatch selfId selfDid st.lastSeenAt notifs).Pairwise timeLe := by
    unfold pollBatch
    exact pairwise_sortByIndexedAt _
  obtain ⟨m0, _, h1, h2, h3⟩ := processAll_cursor cfg ex st _ hne hsorted
  have hbound : m.indexedAt.toList ≤ m0.indexedAt.toList := h3 m hmem
  constructor
  · intro hmem2
    unfold poll at hmem2
    rw [h1] at hmem2
    exact absurd (pollBatch_mem_gt selfId selfDid m0.indexedAt notifs2 m hmem2)
      (not_lt.mpr hbound)
  · intro hmem2
    unfold poll at hmem2
    rw [h2] at hmem2
    exact absurd (pollBatch_mem_gt selfId selfDid m0.indexedAt notifs2 m hmem2)
      (not_lt.mpr hbound)

def cmdCfgAdmin : CommandConfig := ⟨true, ["admin.bsky.social"], 60, none⟩

theorem cursor_advanced_for_every_mention_witness :
    ((processMention cmdCfgAdmin exec0 pstate0 mention0).1.lastSeenAt = some "b" ∧
      (processMention cmdCfgAdmin exec0 pstate0 mention0).1.persistedLastSeenAt = some "b") ∧
    mention0 ∉ pollBatch "self.bsky" none
      (poll cmdCfgAdmin exec0 "self.bsky" none pstate0 [mention0]).1.lastSeenAt [mention0] := by
  have h := cursor_advanced_for_every_mention cmdCfgAdmin exec0 pstate0 mention0
    "self.bsky" none [mention0]
  have hmem : mention0 ∈ pollBatch "self.bsky" none pstate0.lastSeenAt [mention0] := by
    show mention0 ∈ pollBatch "self.bsky" none (some "a") [mention0]
    show mention0 ∈ [mention0]
    exact List.mem_singleton_self _
  exact ⟨h.1, (h.2 hmem [mention0]).1⟩

/-- C7 (amended): a new mention from an author outside the trusted
allow-list yields exactly the cursor write and a warning log - no executor
call runs and no reply of any kind (in particular no "unauthorized"
templated reply) is sent; the mention is simply ignored after the cursor
advance. -/
theorem unauthorized_mention_warned_no_exec (cfg : CommandConfig) (ex : CommandExecutor)
    (st : PollerState) (m : Notification)
    (h : cfg.trustedHandles.any (fun t => lowerStr t == lowerStr m.authorHandle) = false) :
    (processMention cfg ex st m).2 =
      [CmdEvent.persistCursor m.indexedAt,
       CmdEvent.warnLog
         ("Unauthorized command attempt from @" ++ m.authorHandle ++ ": " ++ m.text)] := by
  unfold processMention
  simp [h]

def untrustedMention : Notification :=
  ⟨"mention", "rando.bsky.social", "did:plc:u2", "b", "!sync"⟩

theorem unauthorized_mention_warned_no_exec_witness :
    (processMention cmdCfgAdmin exec0 pstate0 untrustedMention).2 =
      [CmdEvent.persistCursor "b",
       CmdEvent.warnLog
         "Unauthorized command attempt from @rando.bsky.social: !sync"] := by
  have h := unauthorized_mention_warned_no_exec cmdCfgAdmin exec0 pstate0 untrustedMention rfl
  simpa [untrustedMention] using h

def isReplyEvent : CmdEvent → Bool
  | CmdEvent.reply _ _ => true
  | _ => false

def isExecEvent : CmdEvent → Bool
  | CmdEvent.exec _ => true
  | _ => false

/-- C7 as stated is false on the code: at this concrete untrusted mention the
channel sends no reply at all - the trace holds the cursor write and a
warning log only - while the claim requires an "unauthorized" templated
reply to be sent. -/
theorem unauthorized_mention_no_reply_counterexample :
    (processMention cmdCfgAdmin exec0 pstate0 untrustedMention).2 =
      [CmdEvent.persistCursor "b",
       CmdEvent.warnLog
         "Unauthorized command attempt from @rando.bsky.social: !sync"] ∧
    (processMention cmdCfgAdmin exec0 pstate0 untrustedMention).2.filter isReplyEvent = [] ∧
    (processMention cmdCfgAdmin exec0 pstate0 untrustedMention).2.filter isExecEvent = [] := by
  refine ⟨rfl, rfl, rfl⟩

def muteMention : Notification :=
  ⟨"mention", "admin.bsky.social", "did:plc:u3", "2024-05-01T10:00:00.000Z", "!mute"⟩

/-- C6: the parser does not recognize `!mute`, `!unmute`, `!last`, `!stats`
(nor `!pin`, `!unpin`), although the channel's own help and unknown-command
templates advertise all of them as available and the executor implements
them; a trusted `!mute` mention therefore falls through to the
unknown-command reply.  The twelve tokens the parser does recognize are
`!restart`, `!sync`, `!source`, `!status`, `!frequency`, `!help` and the six
toggles. -/
theorem mute_commands_not_parsed :
    parseCommand "!mute" = none ∧
    parseCommand "!unmute" = none ∧
    parseCommand "!last" = none ∧
    parseCommand "!stats" = none ∧
    parseCommand "!pin" = none ∧
    parseCommand "!unpin" = none ∧
    strContains DEFAULT_RESPONSES.help "!mute" = true ∧
    strContains DEFAULT_RESPONSES.help "!stats" = true ∧
    strContains DEFAULT_RESPONSES.unknown "!mute" = true ∧
    (processMention cmdCfgAdmin exec0 pstate0 muteMention).2 =
      [CmdEvent.persistCursor "2024-05-01T10:00:00.000Z",
       CmdEvent.reply "2024-05-01T10:00:00.000Z" DEFAULT_RESPONSES.unknown] ∧
    (parseCommand "!restart" = some ⟨CmdType.restart, [], "!restart"⟩ ∧
      parseCommand "!sync" = some ⟨CmdType.sync, [], "!sync"⟩ ∧
      parseCommand "!help" = some ⟨CmdType.help, [], "!help"⟩ ∧
      parseCommand "!source newhandle" = some ⟨CmdType.source, ["newhandle"], "!source newhandle"⟩ ∧
      parseCommand "!frequency 15" = some ⟨CmdType.frequency, ["15"], "!frequency 15"⟩ ∧
      parseCommand "!posts on" = some ⟨CmdType.posts, ["on"], "!posts on"⟩) := by
  refine ⟨rfl, rfl, rfl, rfl, rfl, rfl, rfl, rfl, rfl, rfl, rfl, rfl, rfl, rfl, rfl, rfl⟩

/-! ## Bot lifecycle (src/sync/bot-instance.ts `BotInstance.start`,
src/web/services/bot-manager.ts `BotManager.start`) -/

structure InstanceState where
  isRunning : Bool
  status : String
  errorMessage : Option String
  timerArmed : Bool
deriving DecidableEq, Repr

def stoppedInstance : InstanceState := ⟨false, "stopped", none, false⟩

/-- One destination configuration row together with the external outcome of
its factory's `create` call. -/
structure PlatformSetup where
  platformId : String
  enabled : Bool
  factoryKnown : Bool
  createOk : Bool
deriving DecidableEq, Repr

/-- Size of the synchronizer set `initializeSynchronizers` builds: one entry
per enabled platform whose factory exists and whose `create` call resolved;
disabled rows, unknown platform ids and failed creations are skipped with a
log, never fatal. -/
def initializeSynchronizers (platforms : List PlatformSetup) : Nat :=
  (platforms.filter (fun p => p.enabled && p.factoryKnown && p.createOk)).length

structure StartResult where
  state : InstanceState
  thrown : Option String
deriving DecidableEq, Repr

def noPlatformsMsg : String := "No platforms configured or all platforms failed to initialize"

def alreadyRunningMsg : String := "Bot instance is already running"

/-- `BotInstance.start`: throw at once when already running (state
untouched); otherwise flag `isRunning`, authenticate
(`ensureTwitterAuth` catches every failure internally), build the
synchronizer set, and throw - resetting `isRunning` and recording an error
status - when the set is empty.  Otherwise run the initial sync
(`performSync` catches its own failures; `syncError` is its recorded
outcome) and arm the recurring timer regardless of that outcome. -/
def BotInstance.start (st : InstanceState) (platforms : List PlatformSetup)
    (syncError : Option String) : StartResult :=
  if st.isRunning then { state := st, thrown := some alreadyRunningMsg }
  else
    if initializeSynchronizers platforms = 0 then
      { state :=
          { isRunning := false
            status := "error"
            errorMessage := some noPlatformsMsg
            timerArmed := st.timerArmed }
        thrown := some noPlatformsMsg }
    else
      match syncError with
      | none =>
        { state :=
            { isRunning := true
              status := "running"
              errorMessage := none
              timerArmed := true }
          thrown := none }
      | some e =>
        { state :=
            { isRunning := true
              status := "error"
              errorMessage := some e
              timerArmed := true }
          thrown := none }

/-- The Manager's live-instance map, reduced to its key set. -/
structure ManagerState where
  bots : List Nat
deriving DecidableEq, Repr

/-- `BotManager.start`: reject when a live instance for the id exists;
otherwise create the instance, await its `start` (`instanceRun` is that
call's outcome) - a throw propagates and the map is left untouched - and
only then store the instance in the live map. -/
def BotManager.start (ms : ManagerState) (botId : Nat) (instanceRun : StartResult) :
    ManagerState × Option String :=
  if ms.bots.contains botId then
    (ms, some ("Bot " ++ toString botId ++ " is already running"))
  else
    match instanceRun.thrown with
    | some e => (ms, some e)
    | none => ({ bots := ms.bots ++ [botId] }, none)

/-- C8: `BotInstance.start` throws when the instance is already running, and
`BotManager.start` rejects - leaving the live map unchanged - when a live
instance for the id exists; when the enabled destination configurations
yield zero synchronizers, the instance's start throws, the status becomes
`error`, the instance is not running, and the thrown failure propagates
through `BotManager.start`, which then does not register the instance. -/
theorem start_rejections (st : InstanceState) (platforms : List PlatformSetup)
    (syncError : Option String) (ms : ManagerState) (botId : Nat) (r : StartResult)
    (e : String) :
    (st.isRunning = true →
      (BotInstance.start st platforms syncError).thrown = some alreadyRunningMsg) ∧
    (ms.bots.contains botId = true →
      (BotManager.start ms botId r).2.isSome = true ∧
      (BotManager.start ms botId r).1 = ms) ∧
    (st.isRunning = false → initializeSynchronizers platforms = 0 →
      (BotInstance.start st platforms syncError).thrown = some noPlatformsMsg ∧
      (BotInstance.start st platforms syncError).state.status = "error" ∧
      (BotInstance.start st platforms syncError).state.isRunning = false ∧
      (BotInstance.start st platforms syncError).state.errorMessage = some noPlatformsMsg) ∧
    (ms.bots.contains botId = false → r.thrown = some e →
      (BotManager.start ms botId r).2 = some e ∧
      (BotManager.start ms botId r).1 = ms) := by
  refine ⟨?_, ?_, ?_, ?_⟩
  · intro h
    simp [BotInstance.start, h]
  · intro h
    have h' : botId ∈ ms.bots := by simpa using h
    simp [BotManager.start, h']
  · intro h hz
    simp [BotInstance.start, h, hz]
  · intro h ht
    have h' : botId ∉ ms.bots := by simpa using h
    simp [BotManager.start, h', ht]

def platformsAllFailed : List PlatformSetup :=
  [⟨"bluesky", true, true, false⟩, ⟨"mastodon", false, true, true⟩, ⟨"smoke", true, false, true⟩]

theorem start_rejections_witness :
    (BotInstance.start ⟨true, "running", none, true⟩ platformsAllFailed none).thrown =
      some alreadyRunningMsg ∧
    ((BotManager.start ⟨[7]⟩ 7 ⟨stoppedInstance, none⟩).2.isSome = true ∧
      (BotManager.start ⟨[7]⟩ 7 ⟨stoppedInstance, none⟩).1 = ⟨[7]⟩) ∧
    ((BotInstance.start stoppedInstance platformsAllFailed none).thrown =
        some noPlatformsMsg ∧
      (BotInstance.start stoppedInstance platformsAllFailed none).state.status = "error" ∧
      (BotInstance.start stoppedInstance platformsAllFailed none).state.isRunning = false ∧
      (BotInstance.start stoppedInstance platformsAllFailed none).state.errorMessage =
        some noPlatformsMsg) ∧
    ((BotManager.start ⟨[]⟩ 7
        ⟨(BotInstance.start stoppedInstance platformsAllFailed none).state,
          some noPlatformsMsg⟩).2 = some noPlatformsMsg ∧
      (BotManager.start ⟨[]⟩ 7
        ⟨(BotInstance.start stoppedInstance platformsAllFailed none).state,
          some noPlatformsMsg⟩).1 = ⟨[]⟩) := by
  have h1 := start_rejections ⟨true, "running", none, true⟩ platformsAllFailed none
    ⟨[7]⟩ 7 ⟨stoppedInstance, none⟩ noPlatformsMsg
  have h2 := start_rejections stoppedInstance platformsAllFailed none
    ⟨[]⟩ 7 ⟨(BotInstance.start stoppedInstance platformsAllFailed none).state,
      some noPlatformsMsg⟩ noPlatformsMsg
  exact ⟨h1.1 rfl, h1.2.1 rfl, h2.2.2.1 rfl rfl, h2.2.2.2 rfl rfl⟩

/-! ## Shared-session single flight (src/web/services/bot-manager.ts,
`BotManager.ensureXClient`)

Interleaving semantics of the async method.  Each concurrent caller is a
coroutine; the single-threaded event loop runs exactly one caller between
suspension points.  A caller's `entry` step is the synchronous prefix of the
method - the `this.xClient` and `this.xClientPromise` guard checks - after
which the body suspends at `await this.configService.getTwitterAuthDecrypted()`
(credentials are taken as configured, so the null check does not throw).
Its `authAwait` step is the resumption that assigns
`this.xClientPromise = createTwitterClient(...)`, counted as one
authentication attempt, then suspends awaiting the promise.  Its
`createAwait` step is the resolution: `this.xClient = await ...` together
with the `finally` clearing of `this.xClientPromise`. -/

inductive CallerPhase
  | entry
  | authAwait
  | createAwait
  | joined
  | finished
deriving DecidableEq, Repr

structure SessionState where
  xClient : Bool
  xClientPromise : Bool
  attempts : Nat
  callers : List CallerPhase
deriving DecidableEq, Repr

def stepCaller (s : SessionState) (i : Nat) : SessionState :=
  match s.callers.get? i with
  | none => s
  | some CallerPhase.entry =>
    if s.xClient then { s with callers := s.callers.set i CallerPhase.joined }
    else if s.xClientPromise then { s with callers := s.callers.set i CallerPhase.joined }
    else { s with callers := s.callers.set i CallerPhase.authAwait }
  | some CallerPhase.authAwait =>
    { s with xClientPromise := true, attempts := s.attempts + 1,
             callers := s.callers.set i CallerPhase.createAwait }
  | some CallerPhase.createAwait =>
    { s with xClient := true, xClientPromise := false,
             callers := s.callers.set i CallerPhase.finished }
  | some CallerPhase.joined => s
  | some CallerPhase.finished => s

def runSchedule : SessionState → List Nat → SessionState
  | s, [] => s
  | s, i :: rest => runSchedule (stepCaller s i) rest

/-- A cold manager (`xClient = null`, `xClientPromise = null`) with `n`
concurrent callers about to enter `ensureXClient`. -/
def coldSession (n : Nat) : SessionState :=
  ⟨false, false, 0, List.replicate n CallerPhase.entry⟩

/-- C9: the promise guard of `ensureXClient` sits after an `await` - both
guard checks run before the method suspends at the credentials read, but
`this.xClientPromise` is only assigned after resuming.  Two callers whose
entries interleave before either resumes therefore both call
`createTwitterClient`: two authentication attempts, and with the spec's
five concurrently started bots, five attempts - the claim's "exactly one
attempt, concurrent callers await the same in-flight attempt" fails.  A
schedule in which the first caller assigns the promise before the second
enters yields the intended single attempt, showing the guard protects only
non-interleaved entries. -/
theorem ensureXClient_duplicate_login :
    (runSchedule (coldSession 2) [0, 1, 0, 1, 0, 1]).attempts = 2 ∧
    (runSchedule (coldSession 5) [0, 1, 2, 3, 4, 0, 1, 2, 3, 4, 0]).attempts = 5 ∧
    (runSchedule (coldSession 2) [0, 0, 1, 0, 1]).attempts = 1 := by
  refine ⟨rfl, rfl, rfl⟩

end RoccoBots
